import Mathlib

/-!
Shallow embedding of src/VoiceOperatedCamera.tsx.

The component is a single React function component. Its mutable data is the
set of useState/useRef cells (camera flag, status message, expression text,
model-ready flags, last spoken expression, the video element with its
srcObject, and the overlay canvas). We model that data as the record
CompState below, and each handler of the component as a pure function on
CompState; asynchronous host results (getUserMedia, the two perception
providers) become explicit parameters, with none standing for a rejected
promise. The overlay canvas is modelled as the list of drawing operations
performed since the last clear; speech synthesis as a log of emitted
utterances; MediaStream handles as Nat identifiers. Scores, which are JS
doubles used only through comparison, multiplication by 100 and rounding,
are modelled as exact rationals.
-/

namespace VisionX

/-- One detected face, as consumed by the detect loop after resizeResults:
expressions is the score object as an association list in the enumeration
order of its keys (Object.keys order; face-api fixes the seven expression
labels, with distinct keys), and boxX, boxY the top-left corner of the
detection box used for the fillText call. -/
structure Face where
  expressions : List (String × ℚ)
  boxX : ℚ
  boxY : ℚ
deriving DecidableEq

/-- One COCO-SSD prediction: class label, score, and bounding box. -/
structure ObjPred where
  cls : String
  score : ℚ
  bboxX : ℚ
  bboxY : ℚ
  bboxW : ℚ
  bboxH : ℚ
deriving DecidableEq

/-- A drawing operation on the overlay canvas. The three face-api draw helpers
are recorded with the number of faces drawn; fillText calls are recorded with
their text and position; the object rectangle with its geometry. -/
inductive DrawOp where
  | faceDetections (count : Nat)
  | faceLandmarks (count : Nat)
  | faceExpressions (count : Nat)
  | labelText (text : String) (x y : ℚ)
  | objectRect (x y w h : ℚ)
deriving DecidableEq

/-- The state cells of the VoiceOperatedCamera component. srcObject is the
video element source (a stream id or null); stoppedTracks logs the streams
whose tracks have been stopped; spokenLog logs utterances passed to
speechSynthesis.speak; activeLoops counts the live self-rescheduling detect
chains (each detectLoop call starts one; a chain stays live until one of its
iterations returns without reaching requestAnimationFrame). -/
structure CompState where
  srcObject : Option Nat
  isCameraOn : Bool
  statusMessage : String
  expression : String
  modelsLoaded : Bool
  cocoModel : Bool
  lastSpokenExpression : String
  canvas : List DrawOp
  videoPaused : Bool
  videoEnded : Bool
  stoppedTracks : List Nat
  spokenLog : List String
  activeLoops : Nat
deriving DecidableEq

/-- Initial values of the state cells (lines 10-15): camera off, greeting
status message, empty expression text, models not loaded, nothing spoken. -/
def initState : CompState where
  srcObject := none
  isCameraOn := false
  statusMessage := "Say \x27start camera\x27 or use the buttons"
  expression := ""
  modelsLoaded := false
  cocoModel := false
  lastSpokenExpression := ""
  canvas := []
  videoPaused := true
  videoEnded := false
  stoppedTracks := []
  spokenLog := []
  activeLoops := 0

/-- startCamera (lines 66-79). The awaited getUserMedia outcome is the
parameter acq: some stream means acquisition succeeded with a fresh stream,
none means it rejected (permission denied or no device). On success the code
attaches the stream to the video element, plays it, sets the camera flag,
sets the status text and calls detectLoop, which starts one new detect chain.
On rejection the catch block only writes to console.error, so no state cell
changes. The function reads no state before acting: there is no check of
isCameraOn or srcObject. -/
def startCamera (s : CompState) (acq : Option Nat) : CompState :=
  match acq with
  | none => s
  | some stream =>
      { s with
          srcObject := some stream
          videoPaused := false
          isCameraOn := true
          statusMessage := "Camera started"
          activeLoops := s.activeLoops + 1 }

/-- stopCamera (lines 81-94): if the video has a srcObject, stop all its
tracks and detach it; then unconditionally clear the camera flag, set the
status text, clear the expression text, reset the last spoken expression and
clear the whole overlay canvas. -/
def stopCamera (s : CompState) : CompState :=
  let s1 :=
    match s.srcObject with
    | some stream =>
        { s with stoppedTracks := s.stoppedTracks ++ [stream], srcObject := none }
    | none => s
  { s1 with
      isCameraOn := false
      statusMessage := "Camera stopped"
      expression := ""
      lastSpokenExpression := ""
      canvas := [] }

/-- The reduce of lines 120-125: Object.keys(expressionsObj).reduce with
callback (a, b) => score a > score b then a else b. We fold over the
(label, score) pairs directly, which agrees with folding over keys and
looking each key up (the nullish ?? 0 fallback never fires) because the keys
of a JS object are distinct. The accumulator is kept only under a strict
greater-than, so on a tie the right operand replaces it. -/
def reduceKeys (a : String × ℚ) : List (String × ℚ) → String × ℚ
  | [] => a
  | b :: rest => reduceKeys (if a.2 > b.2 then a else b) rest

/-- The selected (label, score) pair of a score list. A reduce over an empty
key list throws in JS; face-api always supplies its seven fixed labels, so
the empty case is unreachable and is given a neutral default. -/
def selectExpr : List (String × ℚ) → String × ℚ
  | [] => ("", 0)
  | a :: rest => reduceKeys a rest

/-- maxExpression of line 120: the label selected by the reduce. -/
def maxExpression (scores : List (String × ℚ)) : String :=
  (selectExpr scores).1

/-- The confidence string of lines 126-128: (score times 100).toFixed(2),
modelled over exact rationals, rounding half up. -/
def toFixed2 (q : ℚ) : String :=
  let cents : Int := (q * 100 + mkRat 1 2).floor
  toString (cents / 100) ++ "." ++
    (if cents % 100 < 10 then "0" else "") ++ toString (cents % 100)

/-- speakExpression (lines 57-64): when text differs from the last spoken
expression, cancel any in-flight utterance, speak the phrase and record text
as last spoken; otherwise do nothing. Returns the new last-spoken cell value
and the utterance emitted, if any. -/
def speakExpression (lastSpoken text : String) : String × Option String :=
  if text ≠ lastSpoken then (text, some ("You look " ++ text))
  else (lastSpoken, none)

/-- Result of the aggregation block: new last-spoken cell, emitted utterance
(if any), and the expression display text. -/
structure AggResult where
  lastSpoken : String
  utter : Option String
  display : String
deriving DecidableEq

/-- The aggregation block of detect (lines 118-139). Empty faces: display
text becomes the no-face message and the last spoken expression resets.
Otherwise only the first face is used: the reduce selects its dominant
label, the display text is label, space, parenthesised confidence, and
speakExpression runs on the label. The code recovers the confidence by
indexing the score object at the selected key, which is the selected score
because keys are distinct. -/
def aggregate (lastSpoken : String) (faces : List Face) : AggResult :=
  match faces with
  | [] => { lastSpoken := "", utter := none, display := "No face detected" }
  | f :: _ =>
      let sel := selectExpr f.expressions
      let confidence := toFixed2 (sel.2 * 100)
      let sp := speakExpression lastSpoken sel.1
      { lastSpoken := sp.1
        utter := sp.2
        display := sel.1 ++ " (" ++ confidence ++ "%)" }

/-- The label the aggregation block selects for a frame: the reduced label of
the first face, or the empty string for an empty frame (the reset value of
the last-spoken cell, which the code uses as the no-label sentinel). -/
def frameLabel (faces : List Face) : String :=
  match faces with
  | [] => ""
  | f :: _ => maxExpression f.expressions

/-- The aggregation block applied to a sequence of frames, threading the
last-spoken cell; returns the utterance emitted at each frame. -/
def runAgg (lastSpoken : String) : List (List Face) → List (Option String)
  | [] => []
  | fs :: rest =>
      let r := aggregate lastSpoken fs
      r.utter :: runAgg r.lastSpoken rest

/-- The label selected at position i of a frame sequence. -/
def labelAt (frames : List (List Face)) (i : Nat) : String :=
  frameLabel ((frames.get? i).getD [])

/-- The last-spoken value in force just before frame i when the run started
from lastSpoken: the initial value at position 0, else the label of the
previous frame (every non-empty frame writes its label into the cell). -/
def prevLabel (lastSpoken : String) (frames : List (List Face)) : Nat → String
  | 0 => lastSpoken
  | Nat.succ j => labelAt frames j

/-- The two awaited perception results of one detect iteration; none models
a rejected promise, whose await re-throws inside the async function. -/
structure FrameInput where
  faceResult : Option (List Face)
  objResult : Option (List ObjPred)
deriving DecidableEq

/-- The precondition test of line 105: models loaded, COCO model present,
video neither paused nor ended. -/
def detectReady (s : CompState) : Bool :=
  s.modelsLoaded && s.cocoModel && !s.videoPaused && !s.videoEnded

/-- The three face-api draw calls of lines 114-116, after the clearRect of
line 113 emptied the canvas. -/
def faceOps (count : Nat) : List DrawOp :=
  [DrawOp.faceDetections count, DrawOp.faceLandmarks count,
   DrawOp.faceExpressions count]

/-- The drawing operations of one COCO prediction (lines 143-152): the
stroked rectangle, then the class label with its rounded percentage. -/
def objOps (p : ObjPred) : List DrawOp :=
  [DrawOp.objectRect p.bboxX p.bboxY p.bboxW p.bboxH,
   DrawOp.labelText (p.cls ++ " (" ++ toString (p.score * 100 + mkRat 1 2).floor ++ "%)")
     p.bboxX (p.bboxY - 5)]

/-- One iteration of the inner async function detect (lines 104-155). The
returned Bool tells whether the iteration reached the
requestAnimationFrame(detect) call of line 154, scheduling the next
iteration of its chain; false means the chain ends. Line 105 returns early
when the precondition fails, before any drawing or provider call. A rejected
face provider (faceResult = none) aborts the body before the clearRect, so
nothing is applied; a rejected object provider (objResult = none) aborts
after the face results were applied. When both resolve, the canvas holds the
face draws, the expression fillText (for a non-empty frame) and the object
draws, and the iteration reschedules. -/
def detect (s : CompState) (input : FrameInput) : CompState × Bool :=
  if detectReady s = false then (s, false)
  else
    match input.faceResult with
    | none => (s, false)
    | some faces =>
        let s1 := { s with canvas := faceOps faces.length }
        let r := aggregate s1.lastSpokenExpression faces
        let s2 :=
          match faces with
          | [] =>
              { s1 with
                  expression := r.display
                  lastSpokenExpression := r.lastSpoken }
          | f :: _ =>
              { s1 with
                  expression := r.display
                  lastSpokenExpression := r.lastSpoken
                  spokenLog := s1.spokenLog ++ r.utter.toList
                  canvas := s1.canvas ++
                    [DrawOp.labelText r.display f.boxX (f.boxY - 10)] }
        match input.objResult with
        | none => (s2, false)
        | some preds =>
            ({ s2 with canvas := s2.canvas ++ (preds.map objOps).flatten }, true)

/-- ASCII whitespace, by code point. JS trim also strips Unicode space
characters, which do not arise in the transcripts modelled here. -/
def jsIsWs (c : Char) : Bool :=
  c.toNat = 32 || c.toNat = 9 || c.toNat = 10 || c.toNat = 13 ||
    c.toNat = 11 || c.toNat = 12

/-- JS String.prototype.trim on a character list: strip whitespace from both
ends. -/
def jsTrim (l : List Char) : List Char :=
  ((l.dropWhile jsIsWs).reverse.dropWhile jsIsWs).reverse

/-- JS String.prototype.toLowerCase on a character list; on the basic Latin
transcripts modelled here it lowers each character independently. -/
def jsToLower (l : List Char) : List Char :=
  l.map Char.toLower

/-- Does the second list start with the first? -/
def listStartsWith : List Char → List Char → Bool
  | [], _ => true
  | _ :: _, [] => false
  | p :: ps, c :: cs => p == c && listStartsWith ps cs

/-- JS String.prototype.includes: does pat occur contiguously in the list? -/
def containsSub (pat : List Char) : List Char → Bool
  | [] => listStartsWith pat []
  | c :: cs => listStartsWith pat (c :: cs) || containsSub pat cs

/-- The classification outcome of a recognized transcript. -/
inductive VoiceAction where
  | startCam
  | stopCam
  | unknownCmd
deriving DecidableEq

/-- Line 47: command = transcript.trim().toLowerCase(). -/
def normalizeTranscript (t : String) : List Char :=
  jsToLower (jsTrim t.data)

/-- The branch structure of recognition.onresult (lines 46-51): a normalized
transcript containing the start phrase starts the camera; otherwise one
containing the stop phrase stops it; otherwise nothing happens. -/
def classifyTranscript (t : String) : VoiceAction :=
  let command := normalizeTranscript t
  if containsSub "start camera".data command then VoiceAction.startCam
  else if containsSub "stop camera".data command then VoiceAction.stopCam
  else VoiceAction.unknownCmd

/-- The effect of recognition.onresult on the component state, with acq the
getUserMedia outcome used when the start branch runs. -/
def handleTranscript (s : CompState) (t : String) (acq : Option Nat) : CompState :=
  match classifyTranscript t with
  | VoiceAction.startCam => startCamera s acq
  | VoiceAction.stopCam => stopCamera s
  | VoiceAction.unknownCmd => s

/-- A state in which the video is playing but the models are still loading. -/
def loadingState : CompState :=
  { initState with videoPaused := false }

/-- A state in which both models are ready and the video is playing. -/
def readyState : CompState :=
  { initState with modelsLoaded := true, cocoModel := true, videoPaused := false }

/-- A frame input in which both providers resolve with empty detections. -/
def emptyFrame : FrameInput :=
  { faceResult := some [], objResult := some [] }

/-- Demo face with a dominant happy score. -/
def faceHappy : Face :=
  { expressions := [("happy", mkRat 91 100), ("neutral", mkRat 5 100),
      ("sad", mkRat 4 100)], boxX := 10, boxY := 20 }

/-- Demo face where happy still dominates with a different distribution. -/
def faceHappy2 : Face :=
  { expressions := [("happy", mkRat 60 100), ("surprised", mkRat 40 100)],
    boxX := 10, boxY := 20 }

/-- Demo face with a dominant sad score. -/
def faceSad : Face :=
  { expressions := [("sad", mkRat 70 100), ("happy", mkRat 30 100)],
    boxX := 10, boxY := 20 }

/-- Three consecutive non-empty demo frames: happy, happy again, then sad. -/
def demoFrames : List (List Face) :=
  [[faceHappy], [faceHappy2], [faceSad]]

end VisionX

namespace VisionX

/-- C2 counterexample: with the video playing but the models not yet loaded,
the precondition of line 105 is false and the iteration returns without
reaching requestAnimationFrame, so it does not schedule a next check; the
claim says an iteration with a false precondition still schedules the next
iteration. -/
theorem detect_reschedule_counterexample :
    detectReady loadingState = false ∧
    (detect loadingState emptyFrame).2 = false := by
  decide

/-- C2 amended: an iteration whose precondition is false performs no work
and does not schedule a next iteration either: the early return of line 105
skips the requestAnimationFrame call, so the chain terminates after a single
false check. -/
theorem detect_notReady_terminates (s : CompState) (input : FrameInput)
    (h : detectReady s = false) :
    detect s input = (s, false) := by
  simp [detect, h]

/-- Witness for detect_notReady_terminates: models loaded flag is still
false in the initial state, so an iteration there changes nothing and ends
its chain. -/
theorem detect_notReady_terminates_witness :
    detectReady initState = false ∧
    detect initState emptyFrame = (initState, false) := by
  exact ⟨by decide, detect_notReady_terminates initState emptyFrame (by decide)⟩

/-- C3 counterexample: in a ready state, a frame whose face provider call
rejects makes the iteration end without scheduling a next one, contrary to
the claim that the loop still schedules the next iteration after a provider
rejection. -/
theorem detect_survive_counterexample :
    detectReady readyState = true ∧
    (detect readyState { faceResult := none, objResult := some [] }).2 = false := by
  decide

/-- C3 amended: a rejected perception call terminates the detection loop.
The await re-throws inside the async function and no code after it runs: a
face rejection leaves the state untouched and ends the chain, and an object
rejection ends the chain after the face results were applied; in neither
case is a next iteration scheduled. -/
theorem detect_providerFailure_terminates (s : CompState) (input : FrameInput)
    (hready : detectReady s = true) :
    (input.faceResult = none → detect s input = (s, false)) ∧
    (input.objResult = none → (detect s input).2 = false) := by
  obtain ⟨faceRes, objRes⟩ := input
  constructor
  · cases faceRes with
    | none => intro _; simp [detect, hready]
    | some faces => intro h; simp at h
  · cases objRes with
    | some preds => intro h; simp at h
    | none =>
        intro _
        cases faceRes with
        | none => simp [detect, hready]
        | some faces =>
            cases faces with
            | nil => simp [detect, hready]
            | cons f rest => simp [detect, hready]

/-- Witness for detect_providerFailure_terminates: in the ready state, a
frame with both providers rejected leaves the state unchanged and ends the
chain. -/
theorem detect_providerFailure_terminates_witness :
    detect readyState { faceResult := none, objResult := none } =
      (readyState, false) := by
  exact (detect_providerFailure_terminates readyState
    { faceResult := none, objResult := none } (by decide)).1 rfl

/-- C1 counterexample: starting from a ready Off state, a first successful
start turns the camera on and spawns one detect chain; a second start
without an intervening stop acquires and attaches a fresh stream (id 2) and
spawns a second chain, with the first stream never released, contrary to the
claim that start while On is a no-op with at most one active loop. -/
theorem startTwice_counterexample :
    (startCamera readyState (some 1)).isCameraOn = true ∧
    (startCamera readyState (some 1)).activeLoops = 1 ∧
    (startCamera (startCamera readyState (some 1)) (some 2)).activeLoops = 2 ∧
    (startCamera (startCamera readyState (some 1)) (some 2)).srcObject = some 2 ∧
    (startCamera (startCamera readyState (some 1)) (some 2)).stoppedTracks = [] := by
  decide

/-- C1 amended: startCamera has no state guard. Called while the camera is
already On, a successful acquisition attaches the newly acquired stream and
starts one more detect chain, so the number of live loops grows by one and
the previous stream is not released. -/
theorem startCamera_unguarded (s : CompState) (stream : Nat)
    (hOn : s.isCameraOn = true) :
    (startCamera s (some stream)).activeLoops = s.activeLoops + 1 ∧
    (startCamera s (some stream)).srcObject = some stream ∧
    (startCamera s (some stream)).stoppedTracks = s.stoppedTracks ∧
    (startCamera s (some stream)).isCameraOn = true := by
  simp [startCamera]

/-- Witness for startCamera_unguarded: the second start on an already-On
state yields two live chains. -/
theorem startCamera_unguarded_witness :
    (startCamera (startCamera initState (some 5)) (some 6)).activeLoops =
      (startCamera initState (some 5)).activeLoops + 1 := by
  exact (startCamera_unguarded (startCamera initState (some 5)) 6 (by decide)).1

/-- C8 counterexample: when getUserMedia rejects on the initial state, the
catch block only logs, so the whole state is unchanged: the status text
still shows the idle greeting, which carries no failure information, so the
user is not informed of the failure through the status text as the claim
states. -/
theorem startFailure_status_counterexample :
    startCamera initState none = initState ∧
    (startCamera initState none).statusMessage =
      "Say \x27start camera\x27 or use the buttons" ∧
    (startCamera initState none).activeLoops = 0 := by
  decide

/-- C8 amended: when acquisition fails, no state cell changes at all: the
session that was Off stays Off, no detection loop starts, and the status
text is left exactly as it was (the failure is only written to the console),
so the user is not informed through the status text. -/
theorem startCamera_failure_silent (s : CompState) :
    startCamera s none = s ∧
    (startCamera s none).isCameraOn = s.isCameraOn ∧
    (startCamera s none).activeLoops = s.activeLoops ∧
    (startCamera s none).statusMessage = s.statusMessage := by
  exact ⟨rfl, rfl, rfl, rfl⟩

/-- C6 counterexample: calling stop when the camera is already Off is not a
no-op, and the post-stop state does not equal the initial state: the status
message changes from the idle greeting to the stopped message. -/
theorem stop_noop_counterexample :
    stopCamera initState ≠ initState ∧
    (stopCamera initState).statusMessage = "Camera stopped" ∧
    initState.statusMessage = "Say \x27start camera\x27 or use the buttons" := by
  decide

/-- C6 amended: stop with an active stream stops all its tracks, detaches
it, clears the whole overlay, clears the expression text, resets the
debounce cell and turns the camera flag off; stream, camera flag, expression
text, debounce cell and canvas all return to their initial values, but the
status message becomes the stopped message, which differs from its initial
value. Stop when already Off releases no tracks but still rewrites the
status message, expression text, debounce cell and canvas, so it is not a
pure no-op. -/
theorem stopCamera_spec (s : CompState) :
    (∀ stream, s.srcObject = some stream →
      (stopCamera s).srcObject = none ∧
      (stopCamera s).stoppedTracks = s.stoppedTracks ++ [stream] ∧
      (stopCamera s).isCameraOn = false ∧
      (stopCamera s).statusMessage = "Camera stopped" ∧
      (stopCamera s).expression = "" ∧
      (stopCamera s).lastSpokenExpression = "" ∧
      (stopCamera s).canvas = [] ∧
      (stopCamera s).srcObject = initState.srcObject ∧
      (stopCamera s).isCameraOn = initState.isCameraOn ∧
      (stopCamera s).expression = initState.expression ∧
      (stopCamera s).lastSpokenExpression = initState.lastSpokenExpression ∧
      (stopCamera s).canvas = initState.canvas ∧
      (stopCamera s).statusMessage ≠ initState.statusMessage) ∧
    (s.srcObject = none →
      stopCamera s =
        { s with
            isCameraOn := false
            statusMessage := "Camera stopped"
            expression := ""
            lastSpokenExpression := ""
            canvas := [] }) := by
  constructor
  · intro stream hstream
    simp [stopCamera, hstream, initState]
  · intro hnone
    simp [stopCamera, hnone]

/-- Witness for stopCamera_spec: stopping right after a successful start
releases the acquired stream, detaches it and blanks the overlay. -/
theorem stopCamera_spec_witness :
    (stopCamera (startCamera initState (some 3))).stoppedTracks = [3] ∧
    (stopCamera (startCamera initState (some 3))).srcObject = none ∧
    (stopCamera (startCamera initState (some 3))).canvas = [] := by
  have h := (stopCamera_spec (startCamera initState (some 3))).1 3 (by decide)
  exact ⟨h.2.1.trans (by decide), h.1, h.2.2.2.2.2.2.1⟩

/-- C10: every stop call, in particular one made while the camera is already
Off, sets the status message to the stopped message, clears the expression
text and resets the debounce cell; in the Off case no tracks are released,
and stopping from the initial state changes the visible status text, so a
stop in the Off state is not a pure no-op on observable state. -/
theorem stop_when_off_not_noop (s : CompState) :
    (stopCamera s).statusMessage = "Camera stopped" ∧
    (stopCamera s).expression = "" ∧
    (stopCamera s).lastSpokenExpression = "" ∧
    (s.srcObject = none → (stopCamera s).stoppedTracks = s.stoppedTracks) ∧
    (stopCamera initState).statusMessage ≠ initState.statusMessage := by
  refine ⟨?_, ?_, ?_, ?_, by decide⟩
  · cases h : s.srcObject <;> simp [stopCamera, h]
  · cases h : s.srcObject <;> simp [stopCamera, h]
  · cases h : s.srcObject <;> simp [stopCamera, h]
  · intro hnone; simp [stopCamera, hnone]

/-- Witness for stop_when_off_not_noop, at the initial (Off) state. -/
theorem stop_when_off_not_noop_witness :
    (stopCamera initState).statusMessage = "Camera stopped" ∧
    (stopCamera initState).stoppedTracks = initState.stoppedTracks := by
  have h := stop_when_off_not_noop initState
  exact ⟨h.1, h.2.2.2.1 (by decide)⟩

/-- Characterization of the fold behind the reduce of lines 120-125: either
the accumulator beats every element strictly and survives, or the result is
the element at the last position attaining the maximum: every element weakly
below it, every strictly later element strictly below it. -/
theorem reduceKeys_spec (l : List (String × ℚ)) (a : String × ℚ) :
    (reduceKeys a l = a ∧ ∀ b ∈ l, b.2 < a.2) ∨
    (∃ i : Fin l.length,
      reduceKeys a l = l.get i ∧ a.2 ≤ (l.get i).2 ∧
      (∀ j : Fin l.length, (l.get j).2 ≤ (l.get i).2) ∧
      (∀ j : Fin l.length, i.val < j.val → (l.get j).2 < (l.get i).2)) := by
  induction l generalizing a with
  | nil => exact Or.inl ⟨rfl, by simp⟩
  | cons b rest ih =>
    have hred : reduceKeys a (b :: rest) = reduceKeys (if a.2 > b.2 then a else b) rest := rfl
    by_cases hab : a.2 > b.2
    · rw [if_pos hab] at hred
      rcases ih a with ⟨he, hlt⟩ | ⟨i, he, hai, hall, hgt⟩
      · refine Or.inl ⟨hred.trans he, ?_⟩
        intro x hx
        rcases List.mem_cons.mp hx with rfl | hx
        · exact hab
        · exact hlt x hx
      · refine Or.inr ⟨i.succ, hred.trans he, hai, ?_, ?_⟩
        · intro j
          refine Fin.cases ?_ ?_ j
          · exact le_of_lt (lt_of_lt_of_le hab hai)
          · intro k; exact hall k
        · intro j
          refine Fin.cases ?_ ?_ j
          · intro hj; exact absurd hj (by simp)
          · intro k hk
            exact hgt k (by simpa using hk)
    · have hba : a.2 ≤ b.2 := le_of_not_lt hab
      rw [if_neg hab] at hred
      rcases ih b with ⟨he, hlt⟩ | ⟨i, he, hai, hall, hgt⟩
      · refine Or.inr ⟨⟨0, Nat.succ_pos _⟩, hred.trans he, hba, ?_, ?_⟩
        · intro j
          refine Fin.cases ?_ ?_ j
          · exact le_refl _
          · intro k; exact le_of_lt (hlt _ (rest.get_mem _ _))
        · intro j
          refine Fin.cases ?_ ?_ j
          · intro hj; exact absurd hj (by simp)
          · intro k _; exact hlt _ (rest.get_mem _ _)
      · refine Or.inr ⟨i.succ, hred.trans he, le_trans hba hai, ?_, ?_⟩
        · intro j
          refine Fin.cases ?_ ?_ j
          · exact hai
          · intro k; exact hall k
        · intro j
          refine Fin.cases ?_ ?_ j
          · intro hj; exact absurd hj (by simp)
          · intro k hk
            exact hgt k (by simpa using hk)

/-- C4 counterexample: with two labels sharing the maximal score, the reduce
selects the later-indexed label sad, not the earlier-indexed happy the claim
requires: on a tie the strict greater-than keeps the right operand. -/
theorem tie_counterexample :
    maxExpression [("happy", mkRat 1 2), ("sad", mkRat 1 2)] = "sad" ∧
    maxExpression [("happy", mkRat 1 2), ("sad", mkRat 1 2)] ≠ "happy" := by
  decide

/-- C4 amended: for every non-empty score list, the selected label is one
attaining the maximum score, and among equal maxima the later-indexed label
wins: the selected position weakly dominates every position and strictly
dominates every later position, so it is the last position attaining the
maximum (the linear scan with strict greater-than keeps the accumulator only
when it is strictly greater, so a tying later element replaces it). -/
theorem maxExpression_last_max (scores : List (String × ℚ)) (h : scores ≠ []) :
    ∃ i : Fin scores.length,
      maxExpression scores = (scores.get i).1 ∧
      (∀ j : Fin scores.length, (scores.get j).2 ≤ (scores.get i).2) ∧
      (∀ j : Fin scores.length, i.val < j.val → (scores.get j).2 < (scores.get i).2) := by
  match scores with
  | [] => exact absurd rfl h
  | a :: rest =>
      rcases reduceKeys_spec rest a with ⟨he, hlt⟩ | ⟨i, he, hai, hall, hgt⟩
      · refine ⟨⟨0, Nat.succ_pos _⟩, ?_, ?_, ?_⟩
        · show (reduceKeys a rest).1 = a.1
          rw [he]
        · intro j
          refine Fin.cases ?_ ?_ j
          · exact le_refl _
          · intro k; exact le_of_lt (hlt _ (rest.get_mem _ _))
        · intro j
          refine Fin.cases ?_ ?_ j
          · intro hj; exact absurd hj (by simp)
          · intro k _; exact hlt _ (rest.get_mem _ _)
      · refine ⟨i.succ, ?_, ?_, ?_⟩
        · show (reduceKeys a rest).1 = _
          rw [he]; rfl
        · intro j
          refine Fin.cases ?_ ?_ j
          · exact hai
          · intro k; exact hall k
        · intro j
          refine Fin.cases ?_ ?_ j
          · intro hj; exact absurd hj (by simp)
          · intro k hk; exact hgt k (by simpa using hk)

/-- Witness for maxExpression_last_max at the demo score list of faceHappy,
whose maximum is unique. -/
theorem maxExpression_last_max_witness :
    faceHappy.expressions ≠ [] ∧
    ∃ i : Fin faceHappy.expressions.length,
      maxExpression faceHappy.expressions = (faceHappy.expressions.get i).1 ∧
      (∀ j : Fin faceHappy.expressions.length,
        (faceHappy.expressions.get j).2 ≤ (faceHappy.expressions.get i).2) ∧
      (∀ j : Fin faceHappy.expressions.length,
        i.val < j.val →
          (faceHappy.expressions.get j).2 < (faceHappy.expressions.get i).2) :=
  ⟨by decide, maxExpression_last_max faceHappy.expressions (by decide)⟩

/-- The aggregation block always ends with the last-spoken cell holding the
label of the frame: the selected label for a non-empty frame (written by
speakExpression on a change, already equal to it otherwise), the empty
string after the empty-frame reset. -/
theorem aggregate_lastSpoken_eq (lastSpoken : String) (faces : List Face) :
    (aggregate lastSpoken faces).lastSpoken = frameLabel faces := by
  cases faces with
  | nil => rfl
  | cons f rest =>
      by_cases h : (selectExpr f.expressions).1 ≠ lastSpoken
      · simp [aggregate, speakExpression, frameLabel, maxExpression, h]
      · simp [aggregate, speakExpression, frameLabel, maxExpression, h]
        exact (not_ne_iff.mp h).symm

/-- On a non-empty frame the aggregation block emits the spoken phrase
exactly when the selected label differs from the last spoken one. -/
theorem aggregate_utter_eq (lastSpoken : String) (f : Face) (rest : List Face) :
    (aggregate lastSpoken (f :: rest)).utter =
      (if maxExpression f.expressions ≠ lastSpoken
       then some ("You look " ++ maxExpression f.expressions) else none) := by
  by_cases h : (selectExpr f.expressions).1 ≠ lastSpoken <;>
    simp [aggregate, speakExpression, maxExpression, h]

/-- Indexed characterization of the utterance stream over non-empty frames:
position i speaks exactly when its label differs from the label in force
before it (the starting value at position 0, the previous label after). -/
theorem runAgg_get? (frames : List (List Face)) :
    ∀ (lastSpoken : String) (i : Nat), i < frames.length →
      (∀ fs ∈ frames, fs ≠ []) →
      (runAgg lastSpoken frames).get? i =
        some (if labelAt frames i ≠ prevLabel lastSpoken frames i
              then some ("You look " ++ labelAt frames i) else none) := by
  induction frames with
  | nil => intro _ i hi _; exact absurd hi (by simp)
  | cons fs rest ih =>
      intro lastSpoken i hi hne
      have hfs : fs ≠ [] := hne fs (List.mem_cons_self fs rest)
      obtain ⟨f, frest, rfl⟩ : ∃ f frest, fs = f :: frest := by
        cases fs with
        | nil => exact absurd rfl hfs
        | cons f frest => exact ⟨f, frest, rfl⟩
      have hcons : runAgg lastSpoken ((f :: frest) :: rest) =
          (aggregate lastSpoken (f :: frest)).utter ::
            runAgg (frameLabel (f :: frest)) rest := by
        rw [runAgg, aggregate_lastSpoken_eq]
      cases i with
      | zero =>
          rw [hcons]
          simp only [List.get?_cons_zero, aggregate_utter_eq]
          simp [labelAt, prevLabel, frameLabel]
      | succ j =>
          have hj : j < rest.length := by simpa using hi
          have hner : ∀ gs ∈ rest, gs ≠ [] :=
            fun gs hgs => hne gs (List.mem_cons_of_mem _ hgs)
          have hrec := ih (frameLabel (f :: frest)) j hj hner
          rw [hcons]
          simp only [List.get?_cons_succ]
          rw [hrec]
          have h1 : labelAt rest j = labelAt ((f :: frest) :: rest) (j + 1) := by
            simp [labelAt]
          have h2 : prevLabel (frameLabel (f :: frest)) rest j =
              prevLabel lastSpoken ((f :: frest) :: rest) (j + 1) := by
            cases j with
            | zero => simp [prevLabel, labelAt]
            | succ k => simp [prevLabel, labelAt]
          rw [h1, h2]

/-- C5: over a sequence of consecutive non-empty frames started from the
reset debounce state, an utterance is emitted at exactly the positions whose
selected label differs from the previously spoken label, the first frame
always speaking (a change from the reset value none); and the empty-faces
case resets the debounce cell, displays the no-face message and never
speaks. -/
theorem speaks_on_changes (frames : List (List Face))
    (hne : ∀ fs ∈ frames, fs ≠ [])
    (hlbl : ∀ fs ∈ frames, frameLabel fs ≠ "") :
    (∀ i, i < frames.length →
      (runAgg "" frames).get? i =
        some (if labelAt frames i ≠ prevLabel "" frames i
              then some ("You look " ++ labelAt frames i) else none)) ∧
    (0 < frames.length →
      (runAgg "" frames).get? 0 =
        some (some ("You look " ++ labelAt frames 0))) ∧
    (∀ lastSpoken, aggregate lastSpoken [] =
      { lastSpoken := "", utter := none, display := "No face detected" }) := by
  refine ⟨fun i hi => runAgg_get? frames "" i hi hne, ?_, fun _ => rfl⟩
  intro h0
  rw [runAgg_get? frames "" 0 h0 hne]
  have hl : labelAt frames 0 ≠ "" := by
    cases frames with
    | nil => exact absurd h0 (by simp)
    | cons fs rest =>
        simpa [labelAt] using hlbl fs (List.mem_cons_self fs rest)
  simp [prevLabel, hl]

/-- Witness for speaks_on_changes on the three demo frames happy, happy,
sad: speak at the first frame, stay silent at the repeated label, speak
again at the change. -/
theorem speaks_on_changes_witness :
    (runAgg "" demoFrames).get? 0 = some (some "You look happy") ∧
    (runAgg "" demoFrames).get? 1 = some none ∧
    (runAgg "" demoFrames).get? 2 = some (some "You look sad") := by
  have h := speaks_on_changes demoFrames (by decide) (by decide)
  refine ⟨?_, ?_, ?_⟩
  · rw [h.1 0 (by decide)]; decide
  · rw [h.1 1 (by decide)]; decide
  · rw [h.1 2 (by decide)]; decide

/-- Conversion of a valid code point back out of Char.ofNat. -/
theorem char_toNat_ofNat (n : Nat) (h : n < 55296) : (Char.ofNat n).toNat = n := by
  have hv : n.isValidChar := Or.inl h
  simp [Char.ofNat, hv, Char.ofNatAux, Char.toNat, UInt32.toNat, BitVec.toNat_ofNatLt]

/-- Characters in the letter ranges are not whitespace. -/
theorem jsIsWs_eq_false_of (c : Char) (h65 : 65 ≤ c.toNat) (h122 : c.toNat ≤ 122) :
    jsIsWs c = false := by
  simp only [jsIsWs, Bool.or_eq_false_iff, decide_eq_false_iff_not]
  omega

/-- Lowercasing does not change whether a character is whitespace. -/
theorem jsIsWs_toLower (c : Char) : jsIsWs (Char.toLower c) = jsIsWs c := by
  show jsIsWs (if c.toNat ≥ 65 ∧ c.toNat ≤ 90 then Char.ofNat (c.toNat + 32) else c) =
    jsIsWs c
  by_cases hc : c.toNat ≥ 65 ∧ c.toNat ≤ 90
  · rw [if_pos hc]
    have h1 : (Char.ofNat (Char.toNat c + 32)).toNat = Char.toNat c + 32 :=
      char_toNat_ofNat _ (by omega)
    rw [jsIsWs_eq_false_of (Char.ofNat (Char.toNat c + 32)) (by rw [h1]; omega)
          (by rw [h1]; omega),
        jsIsWs_eq_false_of c (by omega) (by omega)]
  · rw [if_neg hc]

/-- Lowercasing is the identity outside the uppercase range. -/
theorem toLower_eq_self (c : Char) (h : ¬(Char.toNat c ≥ 65 ∧ Char.toNat c ≤ 90)) :
    Char.toLower c = c := by
  show (if c.toNat ≥ 65 ∧ c.toNat ≤ 90 then Char.ofNat (c.toNat + 32) else c) = c
  rw [if_neg h]

/-- A lowercased character is never in the uppercase range. -/
theorem toLower_toNat_not_upper (c : Char) :
    ¬(Char.toNat (Char.toLower c) ≥ 65 ∧ Char.toNat (Char.toLower c) ≤ 90) := by
  by_cases hc : c.toNat ≥ 65 ∧ c.toNat ≤ 90
  · have hl : Char.toLower c = Char.ofNat (c.toNat + 32) := by
      show (if c.toNat ≥ 65 ∧ c.toNat ≤ 90 then Char.ofNat (c.toNat + 32) else c) =
        Char.ofNat (c.toNat + 32)
      rw [if_pos hc]
    have h1 : (Char.ofNat (Char.toNat c + 32)).toNat = Char.toNat c + 32 :=
      char_toNat_ofNat _ (by omega)
    rw [hl, h1]
    omega
  · rw [toLower_eq_self c hc]
    exact hc

/-- Lowercasing a character is idempotent. -/
theorem toLower_idem (c : Char) : Char.toLower (Char.toLower c) = Char.toLower c :=
  toLower_eq_self _ (toLower_toNat_not_upper c)

/-- Dropping whitespace ignores an all-whitespace prefix. -/
theorem dropWhile_ws_append (pre l : List Char) (h : ∀ c ∈ pre, jsIsWs c = true) :
    (pre ++ l).dropWhile jsIsWs = l.dropWhile jsIsWs := by
  induction pre with
  | nil => rfl
  | cons c cs ih =>
      have hc : jsIsWs c = true := h c (List.mem_cons_self c cs)
      rw [List.cons_append]
      simp only [List.dropWhile_cons, hc, if_true]
      exact ih (fun d hd => h d (List.mem_cons_of_mem _ hd))

/-- Dropping whitespace empties an all-whitespace list. -/
theorem dropWhile_ws_all (l : List Char) (h : ∀ c ∈ l, jsIsWs c = true) :
    l.dropWhile jsIsWs = [] := by
  have := dropWhile_ws_append l [] h
  simpa using this

/-- Dropping whitespace through an all-whitespace suffix. -/
theorem dropWhile_ws_append_post (l post : List Char) (h : ∀ c ∈ post, jsIsWs c = true) :
    (l ++ post).dropWhile jsIsWs =
      (if (l.dropWhile jsIsWs).isEmpty then [] else l.dropWhile jsIsWs ++ post) := by
  induction l with
  | nil => simp [dropWhile_ws_all post h]
  | cons c cs ih =>
      by_cases hc : jsIsWs c = true
      · have hd : List.dropWhile jsIsWs (c :: cs) = List.dropWhile jsIsWs cs := by
          simp [List.dropWhile_cons, hc]
        have hd2 : List.dropWhile jsIsWs (c :: (cs ++ post)) =
            List.dropWhile jsIsWs (cs ++ post) := by
          simp [List.dropWhile_cons, hc]
        rw [List.cons_append, hd2, hd]
        exact ih
      · have hcf : jsIsWs c = false := by simpa using hc
        have hd : List.dropWhile jsIsWs (c :: cs) = c :: cs := by
          simp [List.dropWhile_cons, hcf]
        have hd2 : List.dropWhile jsIsWs (c :: (cs ++ post)) = c :: (cs ++ post) := by
          simp [List.dropWhile_cons, hcf]
        rw [List.cons_append, hd2, hd]
        simp

/-- Trimming strips all-whitespace padding on both ends. -/
theorem jsTrim_pad (pre post l : List Char) (h1 : ∀ c ∈ pre, jsIsWs c = true)
    (h2 : ∀ c ∈ post, jsIsWs c = true) :
    jsTrim (pre ++ l ++ post) = jsTrim l := by
  unfold jsTrim
  rw [List.append_assoc, dropWhile_ws_append pre (l ++ post) h1,
      dropWhile_ws_append_post l post h2]
  by_cases he : (l.dropWhile jsIsWs).isEmpty
  · rw [if_pos he]
    have hnil : l.dropWhile jsIsWs = [] := by
      cases hdl : l.dropWhile jsIsWs with
      | nil => rfl
      | cons x xs => rw [hdl] at he; simp at he
    rw [hnil]
  · rw [if_neg he, List.reverse_append,
      dropWhile_ws_append post.reverse _ (fun c hc => h2 c (List.mem_reverse.mp hc))]

/-- Trimming commutes with lowercasing. -/
theorem jsTrim_jsToLower (l : List Char) : jsTrim (jsToLower l) = jsToLower (jsTrim l) := by
  have hfun : (jsIsWs ∘ Char.toLower) = jsIsWs := funext jsIsWs_toLower
  unfold jsTrim jsToLower
  rw [List.dropWhile_map, hfun, ← List.map_reverse, List.dropWhile_map, hfun,
    ← List.map_reverse]

/-- Lowercasing a list is idempotent. -/
theorem jsToLower_idem (l : List Char) : jsToLower (jsToLower l) = jsToLower l := by
  have hfun : (Char.toLower ∘ Char.toLower) = Char.toLower := funext toLower_idem
  unfold jsToLower
  rw [List.map_map, hfun]

/-- Normalization is insensitive to prior lowercasing of the transcript. -/
theorem normalize_lower (t : String) :
    normalizeTranscript (String.mk (jsToLower t.data)) = normalizeTranscript t := by
  unfold normalizeTranscript
  show jsToLower (jsTrim (jsToLower t.data)) = jsToLower (jsTrim t.data)
  rw [jsTrim_jsToLower, jsToLower_idem]

/-- Normalization is insensitive to whitespace padding of the transcript. -/
theorem normalize_pad (t : String) (pre post : List Char)
    (h1 : ∀ c ∈ pre, jsIsWs c = true) (h2 : ∀ c ∈ post, jsIsWs c = true) :
    normalizeTranscript (String.mk (pre ++ t.data ++ post)) = normalizeTranscript t := by
  unfold normalizeTranscript
  show jsToLower (jsTrim (pre ++ t.data ++ post)) = jsToLower (jsTrim t.data)
  rw [jsTrim_pad pre post t.data h1 h2]

/-- Classification depends only on the normalized transcript. -/
theorem classify_congr (t u : String)
    (h : normalizeTranscript t = normalizeTranscript u) :
    classifyTranscript t = classifyTranscript u := by
  unfold classifyTranscript
  rw [h]

/-- C7: transcript classification is insensitive to letter case and to
whitespace padding of the transcript (two transcripts equal after the trim
and lowercase normalization classify alike); a transcript classified as
unknown causes no state change; and the three specified examples behave as
stated: the mixed-case start request starts the camera, the mixed-case stop
request stops it, and an unrelated phrase does nothing. -/
theorem voice_classification (t : String) :
    (classifyTranscript (String.mk (jsToLower t.data)) = classifyTranscript t) ∧
    (∀ pre post : List Char, (∀ c ∈ pre, jsIsWs c = true) →
      (∀ c ∈ post, jsIsWs c = true) →
      classifyTranscript (String.mk (pre ++ t.data ++ post)) = classifyTranscript t) ∧
    (classifyTranscript t = VoiceAction.unknownCmd →
      ∀ s acq, handleTranscript s t acq = s) ∧
    (∀ s acq, handleTranscript s "Could you please Start Camera" acq = startCamera s acq) ∧
    (∀ s acq, handleTranscript s "please STOP camera now" acq = stopCamera s) ∧
    (∀ s acq, handleTranscript s "hello world" acq = s) := by
  refine ⟨classify_congr _ _ (normalize_lower t),
    fun pre post h1 h2 => classify_congr _ _ (normalize_pad t pre post h1 h2),
    ?_, ?_, ?_, ?_⟩
  · intro hu s acq
    unfold handleTranscript
    rw [hu]
  · intro s acq
    have e : classifyTranscript "Could you please Start Camera" = VoiceAction.startCam := by
      decide
    unfold handleTranscript
    rw [e]
  · intro s acq
    have e : classifyTranscript "please STOP camera now" = VoiceAction.stopCam := by
      decide
    unfold handleTranscript
    rw [e]
  · intro s acq
    have e : classifyTranscript "hello world" = VoiceAction.unknownCmd := by
      decide
    unfold handleTranscript
    rw [e]

/-- Witness for voice_classification: concrete lowercase, padding and
no-action instances. -/
theorem voice_classification_witness :
    classifyTranscript (String.mk (jsToLower "START camera".data)) =
      classifyTranscript "START camera" ∧
    classifyTranscript (String.mk (([' '] : List Char) ++ "stop camera".data ++ [' '])) =
      classifyTranscript "stop camera" ∧
    handleTranscript initState "hello world" none = initState := by
  refine ⟨(voice_classification "START camera").1,
    (voice_classification "stop camera").2.1 [' '] [' '] (by decide) (by decide),
    (voice_classification "hello world").2.2.2.2.2 initState none⟩

/-- C9: a transcript whose normalization contains both command phrases takes
the start action and not the stop action: the start branch is tested first,
so it shadows the stop branch. -/
theorem start_precedes_stop (s : CompState) (t : String) (acq : Option Nat)
    (hstart : containsSub "start camera".data (normalizeTranscript t) = true)
    (hstop : containsSub "stop camera".data (normalizeTranscript t) = true) :
    classifyTranscript t = VoiceAction.startCam ∧
    handleTranscript s t acq = startCamera s acq := by
  have hc : classifyTranscript t = VoiceAction.startCam := by
    simp [classifyTranscript, hstart]
  refine ⟨hc, ?_⟩
  unfold handleTranscript
  rw [hc]

/-- Witness for start_precedes_stop on a transcript holding both phrases. -/
theorem start_precedes_stop_witness :
    classifyTranscript "start camera and stop camera" = VoiceAction.startCam ∧
    handleTranscript initState "start camera and stop camera" (some 7) =
      startCamera initState (some 7) :=
  start_precedes_stop initState "start camera and stop camera" (some 7)
    (by decide) (by decide)

end VisionX
